import Mathlib

/-!
Shallow embedding of the salvo-express-session core (cookie signing,
session data model, store backends, and the per-request lifecycle
coordinator) together with proofs about the spec's claims.

Sources embedded: `src/cookie_signature.rs`, `src/session.rs`,
`src/handler.rs`, `src/store/memory.rs`, `src/store/redis_store.rs`.
Machine integers are `Nat` with explicit `% 2^w`; time instants are
explicit parameters; effectful store calls become pure state transitions
or effect traces.
-/

namespace CookieSignature

/-! ### SHA-256 (FIPS 180-4), as used by the `hmac`/`sha2` crates.
Bytes are `Nat < 256`, 32-bit words are `Nat < 2^32`. -/

/-- 32-bit right rotation; for `x < 2^32` the result is `< 2^32`. -/
def rotr32 (n x : Nat) : Nat := (x >>> n) ||| ((x % (2 ^ n)) <<< (32 - n))

/-- Addition modulo `2^32`. -/
def add32 (a b : Nat) : Nat := (a + b) % 4294967296

/-- `Ch(e,f,g)`; 32-bit complement is xor with `0xffffffff`. -/
def ch32 (e f g : Nat) : Nat := (e &&& f) ^^^ ((e ^^^ 4294967295) &&& g)

/-- `Maj(a,b,c)`. -/
def maj32 (a b c : Nat) : Nat := (a &&& b) ^^^ (a &&& c) ^^^ (b &&& c)

/-- Big sigma 0. -/
def bsig0 (x : Nat) : Nat := rotr32 2 x ^^^ rotr32 13 x ^^^ rotr32 22 x

/-- Big sigma 1. -/
def bsig1 (x : Nat) : Nat := rotr32 6 x ^^^ rotr32 11 x ^^^ rotr32 25 x

/-- Small sigma 0. -/
def ssig0 (x : Nat) : Nat := rotr32 7 x ^^^ rotr32 18 x ^^^ (x >>> 3)

/-- Small sigma 1. -/
def ssig1 (x : Nat) : Nat := rotr32 17 x ^^^ rotr32 19 x ^^^ (x >>> 10)

/-- The 64 SHA-256 round constants. -/
def roundConsts : List Nat :=
  [1116352408, 1899447441, 3049323471, 3921009573, 961987163,
   1508970993, 2453635748, 2870763221, 3624381080, 310598401,
   607225278, 1426881987, 1925078388, 2162078206, 2614888103,
   3248222580, 3835390401, 4022224774, 264347078, 604807628,
   770255983, 1249150122, 1555081692, 1996064986, 2554220882,
   2821834349, 2952996808, 3210313671, 3336571891, 3584528711,
   113926993, 338241895, 666307205, 773529912, 1294757372,
   1396182291, 1695183700, 1986661051, 2177026350, 2456956037,
   2730485921, 2820302411, 3259730800, 3345764771, 3516065817,
   3600352804, 4094571909, 275423344, 430227734, 506948616,
   659060556, 883997877, 958139571, 1322822218, 1537002063,
   1747873779, 1955562222, 2024104815, 2227730452, 2361852424,
   2428436474, 2756734187, 3204031479, 3329325298]

/-- Eight-word SHA-256 working state. -/
structure Hash8 where
  a : Nat
  b : Nat
  c : Nat
  d : Nat
  e : Nat
  f : Nat
  g : Nat
  hh : Nat

/-- SHA-256 initial hash value. -/
def hInit : Hash8 :=
  { a := 1779033703, b := 3144134277, c := 1013904242, d := 2773480762,
    e := 1359893119, f := 2600822924, g := 528734635, hh := 1541459225 }

/-- Extend the message schedule; `acc` holds the words already produced,
most recent first, so `W[i-2]` is `acc[1]`, `W[i-7]` is `acc[6]`,
`W[i-15]` is `acc[14]`, `W[i-16]` is `acc[15]`. -/
def scheduleAux : Nat → List Nat → List Nat
  | 0, acc => acc.reverse
  | n + 1, acc =>
      let w :=
        add32 (add32 (ssig1 (acc.getD 1 0)) (acc.getD 6 0))
          (add32 (ssig0 (acc.getD 14 0)) (acc.getD 15 0))
      scheduleAux n (w :: acc)

/-- One SHA-256 round, consuming a `(K, W)` pair. -/
def round (st : Hash8) (kw : Nat × Nat) : Hash8 :=
  let t1 := add32 (add32 st.hh (bsig1 st.e)) (add32 (ch32 st.e st.f st.g) (add32 kw.1 kw.2))
  let t2 := add32 (bsig0 st.a) (maj32 st.a st.b st.c)
  { a := add32 t1 t2, b := st.a, c := st.b, d := st.c,
    e := add32 st.d t1, f := st.e, g := st.f, hh := st.g }

/-- Big-endian conversion of bytes to 32-bit words (length a multiple of 4). -/
def bytesToWords : List Nat → List Nat
  | b1 :: b2 :: b3 :: b4 :: rest =>
      ((b1 <<< 24) ||| (b2 <<< 16) ||| (b3 <<< 8) ||| b4) :: bytesToWords rest
  | _ => []

/-- Compress one 64-byte block (given as 16 words) into the state. -/
def compressBlock (st : Hash8) (ws : List Nat) : Hash8 :=
  let w64 := scheduleAux 48 ws.reverse
  let fin := (roundConsts.zip w64).foldl round st
  { a := add32 st.a fin.a, b := add32 st.b fin.b, c := add32 st.c fin.c,
    d := add32 st.d fin.d, e := add32 st.e fin.e, f := add32 st.f fin.f,
    g := add32 st.g fin.g, hh := add32 st.hh fin.hh }

/-- Big-endian 8-byte encoding of the bit length. -/
def lenBytes8 (n : Nat) : List Nat :=
  [(n >>> 56) % 256, (n >>> 48) % 256, (n >>> 40) % 256, (n >>> 32) % 256,
   (n >>> 24) % 256, (n >>> 16) % 256, (n >>> 8) % 256, n % 256]

/-- SHA-256 padding: `0x80`, zeros to 56 mod 64, then the 64-bit bit length. -/
def padMessage (msg : List Nat) : List Nat :=
  let len := msg.length
  let zeros := (119 - len % 64) % 64
  msg ++ 128 :: (List.replicate zeros 0 ++ lenBytes8 (len * 8))

/-- Fold the compression function over `n` 64-byte blocks. -/
def sha256Aux : Nat → Hash8 → List Nat → Hash8
  | 0, st, _ => st
  | n + 1, st, bytes =>
      sha256Aux n (compressBlock st (bytesToWords (bytes.take 64))) (bytes.drop 64)

/-- Big-endian serialization of the final state words to bytes. -/
def wordsToBytes : List Nat → List Nat
  | [] => []
  | w :: rest => (w >>> 24) % 256 :: (w >>> 16) % 256 :: (w >>> 8) % 256 :: w % 256 :: wordsToBytes rest

/-- SHA-256 of a byte list, yielding 32 bytes. -/
def sha256 (msg : List Nat) : List Nat :=
  let padded := padMessage msg
  let st := sha256Aux (padded.length / 64) hInit padded
  wordsToBytes [st.a, st.b, st.c, st.d, st.e, st.f, st.g, st.hh]

/-- HMAC-SHA256 (FIPS 198-1) with a 64-byte block size, as the `hmac` crate
computes it for `HmacSha256::new_from_slice(secret)` / `update(value)`. -/
def hmacSha256 (key msg : List Nat) : List Nat :=
  let k0 := if 64 < key.length then sha256 key else key
  let kp := k0 ++ List.replicate (64 - k0.length) 0
  let ipadKey := kp.map (fun b => b ^^^ 54)
  let opadKey := kp.map (fun b => b ^^^ 92)
  sha256 (opadKey ++ sha256 (ipadKey ++ msg))

/-! ### UTF-8 encoding (Rust `str::as_bytes`) -/

/-- UTF-8 encoding of one scalar value. -/
def utf8Char (c : Char) : List Nat :=
  let n := c.toNat
  if n < 128 then [n]
  else if n < 2048 then [192 ||| (n >>> 6), 128 ||| (n &&& 63)]
  else if n < 65536 then
    [224 ||| (n >>> 12), 128 ||| ((n >>> 6) &&& 63), 128 ||| (n &&& 63)]
  else
    [240 ||| (n >>> 18), 128 ||| ((n >>> 12) &&& 63), 128 ||| ((n >>> 6) &&& 63), 128 ||| (n &&& 63)]

/-- UTF-8 bytes of a character list (the bytes of the Rust `&str`). -/
def utf8 : List Char → List Nat
  | [] => []
  | c :: cs => utf8Char c ++ utf8 cs

/-! ### Base64 (standard alphabet), as `base64::engine::general_purpose::STANDARD` -/

/-- The standard base64 alphabet. -/
def b64Alphabet : List Char :=
  "ABCDEFGHIJKLMNOPQRSTUVWXYZabcdefghijklmnopqrstuvwxyz0123456789+/".toList

/-- Alphabet lookup for a 6-bit value. -/
def b64Char (n : Nat) : Char := b64Alphabet.getD n 'A'

/-- Standard base64 with `=` padding. -/
def base64Encode : List Nat → List Char
  | b1 :: b2 :: b3 :: rest =>
      b64Char (b1 >>> 2) :: b64Char (((b1 &&& 3) <<< 4) ||| (b2 >>> 4)) ::
      b64Char (((b2 &&& 15) <<< 2) ||| (b3 >>> 6)) :: b64Char (b3 &&& 63) :: base64Encode rest
  | [b1, b2] =>
      [b64Char (b1 >>> 2), b64Char (((b1 &&& 3) <<< 4) ||| (b2 >>> 4)),
       b64Char ((b2 &&& 15) <<< 2), '=']
  | [b1] => [b64Char (b1 >>> 2), b64Char ((b1 &&& 3) <<< 4), '=', '=']
  | [] => []

/-- Strip all trailing `=` characters (Rust `trim_end_matches('=')`). -/
def trimEqEnd (l : List Char) : List Char :=
  (l.reverse.dropWhile (fun c => c = '=')).reverse

/-! ### `cookie_signature.rs` -/

/-- `create_signature`: base64(HMAC-SHA256(value, secret)) without padding,
over the UTF-8 bytes, at the character-list level. -/
def createSigChars (value secret : List Char) : List Char :=
  trimEqEnd (base64Encode (hmacSha256 (utf8 secret) (utf8 value)))

/-- `create_signature(value, secret)` from `cookie_signature.rs`. -/
def create_signature (value secret : String) : String :=
  String.mk (createSigChars value.data secret.data)

/-- The signed token `s:` ++ value ++ `.` ++ signature, at character level. -/
def signChars (value secret : List Char) : List Char :=
  's' :: ':' :: (value ++ '.' :: createSigChars value secret)

/-- `sign(value, secret)` from `cookie_signature.rs`:
`format!("s:{}.{}", value, create_signature(value, secret))`. -/
def sign (value secret : String) : String :=
  String.mk (signChars value.data secret.data)

/-- Index of the last `.` (Rust `str::rfind('.')`); for valid UTF-8 input the
byte-index split of the source and this character-index split cut the string
at the same `.` occurrence. -/
def rfindDot : List Char → Option Nat
  | [] => none
  | c :: rest =>
      match rfindDot rest with
      | some i => some (i + 1)
      | none => if c = '.' then some 0 else none

/-- Accumulator loop of `constant_time_compare`: or-accumulate xor of bytes. -/
def ctcFold : List (Nat × Nat) → Nat → Nat
  | [], acc => acc
  | (x, y) :: rest, acc => ctcFold rest (acc ||| (x ^^^ y))

/-- `constant_time_compare(a, b)` from `cookie_signature.rs`: byte-length
check, then xor-or accumulation over zipped bytes. -/
def constant_time_compare (a b : List Char) : Bool :=
  let ab := utf8 a
  let bb := utf8 b
  if ab.length = bb.length then (ctcFold (ab.zip bb) 0) == 0 else false

/-- `unsign(signed_value, secret)` from `cookie_signature.rs`, at character
level: require the `s:` prefix, split at the last `.`, recompute and compare
in constant time. -/
def unsignChars (input secret : List Char) : Option (List Char) :=
  match input with
  | 's' :: ':' :: rest =>
      match rfindDot rest with
      | none => none
      | some i =>
          let value := rest.take i
          let provided := rest.drop (i + 1)
          let expected := createSigChars value secret
          if constant_time_compare expected provided then some value else none
  | _ => none

/-- `unsign(signed_value, secret)` on strings. -/
def unsign (signedValue secret : String) : Option String :=
  (unsignChars signedValue.data secret.data).map String.mk

/-- `unsign_with_secrets(signed_value, secrets)`: try each secret in order. -/
def unsign_with_secrets (signedValue : String) (secrets : List String) : Option String :=
  match secrets with
  | [] => none
  | s :: rest =>
      match unsign signedValue s with
      | some v => some v
      | none => unsign_with_secrets signedValue rest

end CookieSignature

namespace SessionModel

/-! ### `session.rs` — data model.
`DateTime<Utc>` instants are modelled as `Int` seconds; `serde_json::Value`
as the `Json` inductive; the `HashMap` as an association list with unique
keys; the result of `serde_json::to_value` is passed in as `Option Json`
(`none` = serialization error). -/

/-- Dynamic JSON-like attribute values (`serde_json::Value`). -/
inductive Json where
  | null
  | bool (b : Bool)
  | num (n : Int)
  | str (s : String)
  | arr (xs : List Json)
  | obj (fields : List (String × Json))

/-- Insert-or-replace in an association map (`HashMap::insert`). -/
def mapInsert {α : Type} (k : String) (v : α) : List (String × α) → List (String × α)
  | [] => [(k, v)]
  | (k', v') :: rest => if k' = k then (k, v) :: rest else (k', v') :: mapInsert k v rest

/-- Lookup in an association map (`HashMap::get`). -/
def mapLookup {α : Type} (k : String) : List (String × α) → Option α
  | [] => none
  | (k', v') :: rest => if k' = k then some v' else mapLookup k rest

/-- Removal from an association map (`HashMap::remove`). -/
def mapRemove {α : Type} (k : String) : List (String × α) → List (String × α)
  | [] => []
  | (k', v') :: rest => if k' = k then rest else (k', v') :: mapRemove k rest

/-- `SessionCookie` from `session.rs`. -/
structure MSessionCookie where
  original_max_age : Option Int
  expires : Option Int
  secure : Bool
  http_only : Bool
  path : String
  domain : Option String
  same_site : Option String

/-- `SessionCookie::new(max_age_secs)` at instant `now`. -/
def MSessionCookie.new (max_age_secs : Nat) (now : Int) : MSessionCookie :=
  { original_max_age := some ((max_age_secs : Int) * 1000),
    expires := some (now + (max_age_secs : Int)),
    secure := false, http_only := true, path := "/", domain := none, same_site := none }

/-- `SessionCookie::touch`: reset expiry from the original max age. -/
def MSessionCookie.touch (c : MSessionCookie) (now : Int) : MSessionCookie :=
  match c.original_max_age with
  | some orig => { c with expires := some (now + orig / 1000) }
  | none => c

/-- `SessionCookie::is_expired` at instant `now`. -/
def MSessionCookie.is_expired (c : MSessionCookie) (now : Int) : Bool :=
  match c.expires with
  | some e => e < now
  | none => false

/-- `SessionData` from `session.rs`: cookie metadata plus attribute map. -/
structure MSessionData where
  cookie : MSessionCookie
  data : List (String × Json)

/-- `SessionData::new(max_age_secs)` at instant `now`. -/
def MSessionData.new (max_age_secs : Nat) (now : Int) : MSessionData :=
  { cookie := MSessionCookie.new max_age_secs now, data := [] }

/-- `SessionData::set(key, value)`: insert only when serialization of the
value succeeded (`serialized = some v`); on failure do nothing. -/
def MSessionData.set (sd : MSessionData) (key : String) (serialized : Option Json) : MSessionData :=
  match serialized with
  | some v => { sd with data := mapInsert key v sd.data }
  | none => sd

/-- `SessionData::remove(key)`: the removed value and the new data. -/
def MSessionData.remove (sd : MSessionData) (key : String) : Option Json × MSessionData :=
  (mapLookup key sd.data, { sd with data := mapRemove key sd.data })

/-- `SessionData::clear`: drop all attributes, keep cookie metadata. -/
def MSessionData.clear (sd : MSessionData) : MSessionData :=
  { sd with data := [] }

/-- The shared state behind a `Session` handle and all its clones: the
lock-protected `SessionData` plus the atomic flags. Clones of the Rust
handle share this state through `Arc`, so one state value models the
handle and every clone. -/
structure SessionState where
  id : String
  data : MSessionData
  modified : Bool
  is_new : Bool
  destroy : Bool
  regenerate : Bool

/-- `Session::new(id, data, is_new)`: all flags start false. -/
def Session.new (id : String) (d : MSessionData) (is_new : Bool) : SessionState :=
  { id := id, data := d, modified := false, is_new := is_new,
    destroy := false, regenerate := false }

/-- `Session::set`: write the value (insert only on successful
serialization) and unconditionally raise `modified`. -/
def Session.set (s : SessionState) (key : String) (serialized : Option Json) : SessionState :=
  { s with data := s.data.set key serialized, modified := true }

/-- `Session::remove`: raise `modified` only when a value was removed. -/
def Session.remove (s : SessionState) (key : String) : Option Json × SessionState :=
  let r := s.data.remove key
  (r.1, { s with data := r.2, modified := if r.1.isSome then true else s.modified })

/-- `Session::clear`: always raises `modified`. -/
def Session.clear (s : SessionState) : SessionState :=
  { s with data := s.data.clear, modified := true }

/-- `Session::destroy`: raise the destroy flag. -/
def Session.destroy (s : SessionState) : SessionState :=
  { s with destroy := true }

/-- `Session::regenerate`: raise both `regenerate` and `modified`. -/
def Session.regenerate (s : SessionState) : SessionState :=
  { s with regenerate := true, modified := true }

/-- `Session::touch`: refresh the cookie expiry; flags untouched. -/
def Session.touch (s : SessionState) (now : Int) : SessionState :=
  { s with data := { s.data with cookie := s.data.cookie.touch now } }

/-- The state-mutating operations available on a handle (or any clone).
`get`/`contains`/`data`/`cookie`/`is_expired`/`is_empty` are read-only and
cannot change the state, so they are omitted from the transition system. -/
inductive SessionOp where
  | setOp (key : String) (serialized : Option Json)
  | removeOp (key : String)
  | clearOp
  | touchOp (now : Int)
  | destroyOp
  | regenerateOp

/-- One operation applied to the shared state. -/
def applyOp (s : SessionState) : SessionOp → SessionState
  | .setOp k v => Session.set s k v
  | .removeOp k => (Session.remove s k).2
  | .clearOp => Session.clear s
  | .touchOp now => Session.touch s now
  | .destroyOp => Session.destroy s
  | .regenerateOp => Session.regenerate s

/-- A sequence of operations applied in order. -/
def applyOps (s : SessionState) (ops : List SessionOp) : SessionState :=
  ops.foldl applyOp s

end SessionModel

namespace Handler

open SessionModel

/-! ### `handler.rs` — the per-request lifecycle coordinator.
The store is abstracted by its observable calls: the resume phase is
embedded as the ordered trace of store/cookie effects the code performs.
`Utc::now()` is an explicit `Int` parameter. -/

/-- The configuration fields `handler.rs` reads (from `config.rs`). -/
structure SessionConfig where
  secrets : List String
  cookie_name : String
  max_age : Nat
  resave : Bool
  save_uninitialized : Bool
  rolling : Bool

/-- Outcome of `store.get(sid)` as seen by the handler. -/
inductive StoreGetResult where
  | ok (d : Option MSessionData)
  | err

/-- Effects the end-of-request phase can perform, in order. -/
inductive Action where
  | storeDestroy (id : String)
  | storeSet (id : String) (d : MSessionData) (ttl : Option Nat)
  | storeTouch (id : String) (d : MSessionData) (ttl : Option Nat)
  | removeCookie
  | setCookie (id : String)

/-- `get_session_id_from_cookie`: `cookie_value` is the raw cookie value for
the configured name (if any); `decode_result` is the outcome of the external
`urlencoding::decode` collaborator on that value (`none` = decode error).
On decode error the code falls back to the raw value, then unsigns. -/
def get_session_id_from_cookie (secrets : List String)
    (cookie_value : Option String) (decode_result : Option String) : Option String :=
  match cookie_value with
  | none => none
  | some signed_value =>
      let decoded :=
        match decode_result with
        | some d => d
        | none => signed_value
      CookieSignature.unsign_with_secrets decoded secrets

/-- `get_session_ttl`: remaining cookie lifetime if positive, else the
configured max age. -/
def get_session_ttl (cfg : SessionConfig) (sd : MSessionData) (now : Int) : Option Nat :=
  match sd.cookie.expires with
  | some expires =>
      let secs := expires - now
      if 0 < secs then some secs.toNat else some cfg.max_age
  | none => some cfg.max_age

/-- The load-or-create step of `handle` (lines 130-165): `resolved` couples a
resolved session id with the result of `store.get` on it; `fresh_id` is the
freshly generated UUID used when a new session is created. Returns
`(session_id, is_new, data)`. -/
def load_or_create (cfg : SessionConfig) (resolved : Option (String × StoreGetResult))
    (fresh_id : String) (now : Int) : String × Bool × MSessionData :=
  match resolved with
  | some (sid, .ok (some d)) =>
      if d.cookie.is_expired now then (fresh_id, true, MSessionData.new cfg.max_age now)
      else (sid, false, d)
  | some (_, .ok none) => (fresh_id, true, MSessionData.new cfg.max_age now)
  | some (_, .err) => (fresh_id, true, MSessionData.new cfg.max_age now)
  | none => (fresh_id, true, MSessionData.new cfg.max_age now)

/-- `final_session_id`: fresh id when regeneration was requested. -/
def final_id (s : SessionState) (session_id fresh_id : String) : String :=
  if s.regenerate then fresh_id else session_id

/-- `should_save` from `handle`. -/
def should_save (cfg : SessionConfig) (s : SessionState) : Bool :=
  s.modified || cfg.resave || (s.is_new && cfg.save_uninitialized) || s.regenerate

/-- `should_set_cookie` from `handle`. -/
def should_set_cookie (cfg : SessionConfig) (s : SessionState) : Bool :=
  s.is_new || s.regenerate || (cfg.rolling && s.modified)

/-- The end-of-request phase of `handle` (lines 178-228), as the ordered
trace of effects: destroy short-circuits; otherwise destroy-old on
regenerate, then save or touch, then optionally set the cookie. -/
def resume (cfg : SessionConfig) (s : SessionState) (session_id fresh_id : String)
    (now : Int) : List Action :=
  if s.destroy then [.storeDestroy session_id, .removeCookie]
  else
    (if s.regenerate then [Action.storeDestroy session_id] else []) ++
    (if should_save cfg s then
       [Action.storeSet (final_id s session_id fresh_id) s.data (get_session_ttl cfg s.data now)]
     else if !s.is_new && !s.modified then
       [Action.storeTouch (final_id s session_id fresh_id) s.data (get_session_ttl cfg s.data now)]
     else []) ++
    (if should_set_cookie cfg s then [Action.setCookie (final_id s session_id fresh_id)] else [])

end Handler

namespace Store

open SessionModel

/-! ### `store/memory.rs` and `store/redis_store.rs`.
`Instant` is a `Nat` parameter; the Redis keyspace is an association map
from key to the stored record (standing for its JSON serialization) and
the TTL Redis was told. -/

/-- A stored entry of `MemoryStore`. -/
structure StoredSession where
  data : MSessionData
  expires_at : Option Nat

/-- `MemoryStore`: map from prefixed key to stored entry. -/
structure MemoryStore where
  sessions : List (String × StoredSession)
  pfx : String

/-- `MemoryStore::make_key`. -/
def MemoryStore.make_key (st : MemoryStore) (sid : String) : String :=
  st.pfx ++ sid

/-- `MemoryStore::set` at instant `now`: always inserts, with
`expires_at = now + ttl` when a TTL is given. -/
def MemoryStore.set (st : MemoryStore) (sid : String) (d : MSessionData)
    (ttl_secs : Option Nat) (now : Nat) : MemoryStore :=
  let stored : StoredSession := { data := d, expires_at := ttl_secs.map (fun secs => now + secs) }
  { st with sessions := mapInsert (st.make_key sid) stored st.sessions }

/-- `MemoryStore::get` at instant `now`: entries whose expiry has passed
read as absent. -/
def MemoryStore.get (st : MemoryStore) (sid : String) (now : Nat) : Option MSessionData :=
  match mapLookup (st.make_key sid) st.sessions with
  | some stored =>
      match stored.expires_at with
      | some exp => if exp ≤ now then none else some stored.data
      | none => some stored.data
  | none => none

/-- `MemoryStore::destroy`. -/
def MemoryStore.destroy (st : MemoryStore) (sid : String) : MemoryStore :=
  { st with sessions := mapRemove (st.make_key sid) st.sessions }

/-- Whether a raw key is physically present in the backing map
(`HashMap::contains_key`, ignoring expiry). -/
def MemoryStore.containsKey (st : MemoryStore) (key : String) : Bool :=
  (mapLookup key st.sessions).isSome

/-- The Redis keyspace as the handler observes it: key to (record, ttl). -/
structure RedisState where
  entries : List (String × (MSessionData × Nat))

/-- `RedisStore::get_ttl`: fall back to the store's default TTL. -/
def RedisStore.get_ttl (default_ttl : Nat) (ttl_secs : Option Nat) : Nat :=
  ttl_secs.getD default_ttl

/-- `RedisStore::set`: `SET key value EX ttl` when the TTL is positive,
otherwise `DEL key` (zero TTL is a destroy signal). -/
def RedisStore.set (st : RedisState) (pfx : String) (default_ttl : Nat)
    (sid : String) (d : MSessionData) (ttl_secs : Option Nat) : RedisState :=
  let key := pfx ++ sid
  let ttl := RedisStore.get_ttl default_ttl ttl_secs
  if 0 < ttl then { entries := mapInsert key (d, ttl) st.entries }
  else { entries := mapRemove key st.entries }

end Store

section Fixtures

open SessionModel Handler Store

/-! Concrete fixtures used by witnesses and counterexamples. -/

/-- A concrete configuration with all save/cookie toggles off. -/
def cfg0 : Handler.SessionConfig :=
  { secrets := ["secret"], cookie_name := "connect.sid", max_age := 3600,
    resave := false, save_uninitialized := false, rolling := false }

/-- A concrete session record created at instant 0 with a 3600s max age. -/
def sd0 : MSessionData := MSessionData.new 3600 0

/-- A pre-existing modified session with no destroy/regenerate request. -/
def sModified : SessionState :=
  { id := "sid", data := sd0, modified := true, is_new := false,
    destroy := false, regenerate := false }

/-- A pre-existing unmodified session with no destroy/regenerate request. -/
def sIdle : SessionState :=
  { id := "sid", data := sd0, modified := false, is_new := false,
    destroy := false, regenerate := false }

/-- A session whose handle requested destruction. -/
def sDestroy : SessionState :=
  { id := "sid", data := sd0, modified := true, is_new := true,
    destroy := true, regenerate := true }

/-- A state with every monotonic flag already raised. -/
def sAllFlags : SessionState :=
  { id := "sid", data := sd0, modified := true, is_new := true,
    destroy := true, regenerate := true }

/-- An empty memory store with the default prefix. -/
def memStore0 : Store.MemoryStore := { sessions := [], pfx := "sess:" }

/-- An empty Redis keyspace. -/
def redis0 : Store.RedisState := { entries := [] }

end Fixtures

open SessionModel Handler Store

/-! ## Lifecycle and session-model theorems -/

/-- Per-operation monotonicity of the handle's flags. -/
theorem applyOp_flag_mono (s : SessionState) (op : SessionOp) :
    (s.modified = true → (applyOp s op).modified = true) ∧
    (s.destroy = true → (applyOp s op).destroy = true) ∧
    (s.regenerate = true → (applyOp s op).regenerate = true) ∧
    (applyOp s op).is_new = s.is_new := by
  cases op with
  | setOp k v => simp [applyOp, Session.set]
  | removeOp k =>
      refine ⟨?_, ?_, ?_, ?_⟩ <;> simp [applyOp, Session.remove]
      intro h
      simp [h]
  | clearOp => simp [applyOp, Session.clear]
  | touchOp now => simp [applyOp, Session.touch]
  | destroyOp => simp [applyOp, Session.destroy]
  | regenerateOp => simp [applyOp, Session.regenerate]

/-- C9: For every sequence of operations applied to a session handle or any
of its clones (all clones share one `SessionState`), the flags `modified`,
`destroyRequested` and `regenerateRequested` are monotonic — once observed
true they never revert — and `isNew` is fixed at creation. -/
theorem session_flags_monotone (s : SessionState) (ops : List SessionOp) :
    (s.modified = true → (applyOps s ops).modified = true) ∧
    (s.destroy = true → (applyOps s ops).destroy = true) ∧
    (s.regenerate = true → (applyOps s ops).regenerate = true) ∧
    (applyOps s ops).is_new = s.is_new := by
  induction ops generalizing s with
  | nil => exact ⟨id, id, id, rfl⟩
  | cons op rest ih =>
      have h1 := applyOp_flag_mono s op
      have h2 := ih (applyOp s op)
      exact ⟨fun h => h2.1 (h1.1 h), fun h => h2.2.1 (h1.2.1 h),
        fun h => h2.2.2.1 (h1.2.2.1 h), h2.2.2.2.trans h1.2.2.2⟩

/-- Witness for C9 at a concrete state with every flag raised and a
concrete operation sequence. -/
theorem session_flags_monotone_witness :
    (applyOps sAllFlags [SessionOp.clearOp]).modified = true ∧
    (applyOps sAllFlags [SessionOp.clearOp]).destroy = true ∧
    (applyOps sAllFlags [SessionOp.clearOp]).regenerate = true ∧
    (applyOps sAllFlags [SessionOp.clearOp]).is_new = sAllFlags.is_new :=
  ⟨(session_flags_monotone sAllFlags [SessionOp.clearOp]).1 rfl,
   (session_flags_monotone sAllFlags [SessionOp.clearOp]).2.1 rfl,
   (session_flags_monotone sAllFlags [SessionOp.clearOp]).2.2.1 rfl,
   (session_flags_monotone sAllFlags [SessionOp.clearOp]).2.2.2⟩

/-- C10: When serialization of the value fails, `Session::set` leaves the
record (attributes and cookie metadata) entirely unchanged, yet still raises
`modified`, so the end-of-request `should_save` decision is true. -/
theorem set_serialize_failure_frame (s : SessionState) (key : String) (cfg : SessionConfig) :
    (Session.set s key none).data = s.data ∧
    (Session.set s key none).modified = true ∧
    should_save cfg (Session.set s key none) = true := by
  refine ⟨rfl, rfl, ?_⟩
  simp [should_save, Session.set]

/-- C5: When destruction was requested, the end-of-request phase destroys
the session id in the store and removes the cookie, and performs nothing
else — no save, no touch, no signed-cookie emission — regardless of the
other flags and of all configuration. -/
theorem destroy_short_circuits (cfg : SessionConfig) (s : SessionState)
    (sid fid : String) (now : Int) (h : s.destroy = true) :
    resume cfg s sid fid now = [Action.storeDestroy sid, Action.removeCookie] := by
  simp [resume, h]

/-- Witness for C5 at a concrete destroyed session. -/
theorem destroy_short_circuits_witness :
    resume cfg0 sDestroy "sid" "fid" 0 = [Action.storeDestroy "sid", Action.removeCookie] :=
  destroy_short_circuits cfg0 sDestroy "sid" "fid" 0 rfl

/-- C4: For a pre-existing, unmodified session with no destroy/regenerate
request and `rolling`, `resave`, `save_uninitialized` all false, the
end-of-request phase is exactly one `Store.touch` of the session id — no
`Store.set` and no Set-Cookie. -/
theorem idle_session_touch_only (cfg : SessionConfig) (s : SessionState)
    (sid fid : String) (now : Int)
    (h1 : s.is_new = false) (h2 : s.modified = false) (h3 : s.destroy = false)
    (h4 : s.regenerate = false) (h5 : cfg.rolling = false) (h6 : cfg.resave = false)
    (h7 : cfg.save_uninitialized = false) :
    resume cfg s sid fid now = [Action.storeTouch sid s.data (get_session_ttl cfg s.data now)] := by
  simp [resume, should_save, should_set_cookie, final_id, h1, h2, h3, h4, h5, h6, h7]

/-- Witness for C4 at a concrete idle session and the all-off config. -/
theorem idle_session_touch_only_witness :
    resume cfg0 sIdle "sid" "fid" 0 =
      [Action.storeTouch "sid" sIdle.data (get_session_ttl cfg0 sIdle.data 0)] :=
  idle_session_touch_only cfg0 sIdle "sid" "fid" 0 rfl rfl rfl rfl rfl rfl rfl

/-- C3: When destruction was not requested, the end-of-request phase calls
`Store.set` exactly when `should_save` holds, and any `Store.set` it
performs carries the final id, the session record and the computed TTL. -/
theorem store_set_iff_should_save (cfg : SessionConfig) (s : SessionState)
    (sid fid : String) (now : Int) (hd : s.destroy = false) :
    (Action.storeSet (final_id s sid fid) s.data (get_session_ttl cfg s.data now) ∈
        resume cfg s sid fid now ↔ should_save cfg s = true) ∧
    (∀ i d t, Action.storeSet i d t ∈ resume cfg s sid fid now →
      i = final_id s sid fid ∧ d = s.data ∧ t = get_session_ttl cfg s.data now ∧
        should_save cfg s = true) := by
  cases hm : s.modified <;> cases hn : s.is_new <;> cases hr : s.regenerate <;>
    cases hres : cfg.resave <;> cases hsu : cfg.save_uninitialized <;>
      cases hrol : cfg.rolling <;>
        simp_all [resume, should_save, should_set_cookie, final_id]

/-- Witness for C3 at a concrete modified pre-existing session. -/
theorem store_set_iff_should_save_witness :
    (Action.storeSet (final_id sModified "sid" "fid") sModified.data
        (get_session_ttl cfg0 sModified.data 0) ∈ resume cfg0 sModified "sid" "fid" 0 ↔
      should_save cfg0 sModified = true) ∧
    (∀ i d t, Action.storeSet i d t ∈ resume cfg0 sModified "sid" "fid" 0 →
      i = final_id sModified "sid" "fid" ∧ d = sModified.data ∧
        t = get_session_ttl cfg0 sModified.data 0 ∧ should_save cfg0 sModified = true) :=
  store_set_iff_should_save cfg0 sModified "sid" "fid" 0 rfl

/-- C6: For a request with a resolvable session id, a store error, an absent
record, or an expired record never fails the request: load-or-create totally
returns a brand-new record under a freshly generated id with `isNew = true`. -/
theorem load_failures_become_new_session (cfg : SessionConfig) (sid fid : String)
    (r : StoreGetResult) (now : Int)
    (h : r = StoreGetResult.err ∨ r = StoreGetResult.ok none ∨
      ∃ d, r = StoreGetResult.ok (some d) ∧ d.cookie.is_expired now = true) :
    load_or_create cfg (some (sid, r)) fid now =
      (fid, true, MSessionData.new cfg.max_age now) := by
  rcases h with h | h | ⟨d, h, hexp⟩
  · subst h; simp [load_or_create]
  · subst h; simp [load_or_create]
  · subst h; simp [load_or_create, hexp]

/-- Witness for C6 at a concrete store error. -/
theorem load_failures_become_new_session_witness :
    load_or_create cfg0 (some ("sid", StoreGetResult.err)) "fid" 0 =
      ("fid", true, MSessionData.new cfg0.max_age 0) :=
  load_failures_become_new_session cfg0 "sid" "fid" StoreGetResult.err 0 (Or.inl rfl)

namespace CookieSignature

/-! ## Signer lemmas -/

/-- A `getD` result is an element of the list or the default. -/
theorem getD_mem_or {α : Type} (l : List α) (n : Nat) (d : α) :
    l.getD n d ∈ l ∨ l.getD n d = d := by
  induction l generalizing n with
  | nil => right; simp [List.getD]
  | cons a t ih =>
      cases n with
      | zero => left; simp [List.getD]
      | succ m =>
          rcases ih m with h | h
          · left
            rw [List.getD_cons_succ]
            exact List.mem_cons_of_mem _ h
          · right
            rw [List.getD_cons_succ, h]

/-- No base64 alphabet character is a dot. -/
theorem b64Char_ne_dot (n : Nat) : b64Char n ≠ '.' := by
  unfold b64Char
  rcases getD_mem_or b64Alphabet n 'A' with h | h
  · intro he
    rw [he] at h
    exact absurd h (by decide)
  · rw [h]
    decide

/-- Every character emitted by the base64 encoder is an alphabet character
or the padding character. -/
theorem mem_base64 (c : Char) : ∀ bs : List Nat, c ∈ base64Encode bs →
    (∃ n, c = b64Char n) ∨ c = '='
  | [], h => by simp [base64Encode] at h
  | [b1], h => by
      simp only [base64Encode, List.mem_cons, List.not_mem_nil, or_false] at h
      rcases h with h | h | h | h
      · exact Or.inl ⟨_, h⟩
      · exact Or.inl ⟨_, h⟩
      · exact Or.inr h
      · exact Or.inr h
  | [b1, b2], h => by
      simp only [base64Encode, List.mem_cons, List.not_mem_nil, or_false] at h
      rcases h with h | h | h | h
      · exact Or.inl ⟨_, h⟩
      · exact Or.inl ⟨_, h⟩
      · exact Or.inl ⟨_, h⟩
      · exact Or.inr h
  | b1 :: b2 :: b3 :: rest, h => by
      simp only [base64Encode, List.mem_cons] at h
      rcases h with h | h | h | h | h
      · exact Or.inl ⟨_, h⟩
      · exact Or.inl ⟨_, h⟩
      · exact Or.inl ⟨_, h⟩
      · exact Or.inl ⟨_, h⟩
      · exact mem_base64 c rest h

/-- `dropWhile` only keeps elements of the original list. -/
theorem mem_of_mem_dropWhile {α : Type} (p : α → Bool) (l : List α) (a : α)
    (h : a ∈ l.dropWhile p) : a ∈ l := by
  induction l with
  | nil => exact absurd h (List.not_mem_nil a)
  | cons x xs ih =>
      rw [List.dropWhile] at h
      split at h
      · exact List.mem_cons_of_mem _ (ih h)
      · exact h

/-- The produced signature contains no dot. -/
theorem dot_not_in_createSig (value secret : List Char) :
    '.' ∉ createSigChars value secret := by
  intro h
  unfold createSigChars trimEqEnd at h
  rw [List.mem_reverse] at h
  have h2 := mem_of_mem_dropWhile _ _ _ h
  rw [List.mem_reverse] at h2
  rcases mem_base64 _ _ h2 with ⟨n, hn⟩ | he
  · exact b64Char_ne_dot n hn.symm
  · exact absurd he (by decide)

/-- `rfind('.')` on a dotless list is `none`. -/
theorem rfindDot_eq_none (l : List Char) (h : '.' ∉ l) : rfindDot l = none := by
  induction l with
  | nil => rfl
  | cons c rest ih =>
      have hc : ¬(c = '.') := fun he => h (by rw [he]; exact List.mem_cons_self _ _)
      have hr : '.' ∉ rest := fun hm => h (List.mem_cons_of_mem _ hm)
      simp [rfindDot, ih hr, hc]

/-- `rfind('.')` finds the separating dot when the suffix is dotless. -/
theorem rfindDot_append (V sig : List Char) (h : '.' ∉ sig) :
    rfindDot (V ++ '.' :: sig) = some V.length := by
  induction V with
  | nil => simp [rfindDot, rfindDot_eq_none sig h]
  | cons c cs ih => simp [rfindDot, ih]

/-- The xor-or accumulator over a list zipped with itself never changes. -/
theorem ctcFold_zip_self (l : List Nat) (acc : Nat) : ctcFold (l.zip l) acc = acc := by
  induction l generalizing acc with
  | nil => rfl
  | cons x xs ih =>
      show ctcFold ((x, x) :: xs.zip xs) acc = acc
      calc ctcFold ((x, x) :: xs.zip xs) acc
          = ctcFold (xs.zip xs) (acc ||| (x ^^^ x)) := rfl
        _ = ctcFold (xs.zip xs) acc := by rw [Nat.xor_self, Nat.or_zero]
        _ = acc := ih acc

/-- Constant-time comparison of equal strings succeeds. -/
theorem ctc_self (a : List Char) : constant_time_compare a a = true := by
  simp [constant_time_compare, ctcFold_zip_self]

/-- The character-level sign/unsign round trip. -/
theorem unsignChars_signChars (V S : List Char) :
    unsignChars (signChars V S) S = some V := by
  have hdot : '.' ∉ createSigChars V S := dot_not_in_createSig V S
  have hsplit : V ++ '.' :: createSigChars V S = (V ++ ['.']) ++ createSigChars V S := by
    simp
  simp only [unsignChars, signChars, rfindDot_append V _ hdot]
  simp [ctc_self]

/-- The string-level sign/unsign round trip for a single secret. -/
theorem unsign_sign (V S : String) : unsign (sign V S) S = some V := by
  show (unsignChars (signChars V.data S.data) S.data).map String.mk = some V
  rw [unsignChars_signChars]
  rfl

/-- The sign/verify round trip through the secret list. -/
theorem unsign_with_secrets_sign (V S : String) :
    unsign_with_secrets (sign V S) [S] = some V := by
  simp only [unsign_with_secrets, unsign_sign]

/-- C2: For every ASCII value `V` (including values containing `.`) and
every secret `S`, verifying the token produced by signing `V` with `S`
against the secret list `[S]` succeeds and returns `V`; the statement holds
for arbitrary `V`, ASCII or not. -/
theorem unsign_of_sign_roundtrip (V S : String) :
    unsign_with_secrets (sign V S) [S] = some V :=
  unsign_with_secrets_sign V S

end CookieSignature

set_option maxRecDepth 200000 in
/-- C1: `sign(value, secret)` is `"s:" + value + "." + base64(HMAC-SHA256
(value, secret))` with trailing `=` padding stripped, and on the
cross-implementation vector it produces exactly the Node.js output. -/
theorem sign_format_and_cross_impl_vector :
    (∀ value secret : String, CookieSignature.sign value secret =
      "s:" ++ value ++ "." ++ String.mk (CookieSignature.trimEqEnd
        (CookieSignature.base64Encode (CookieSignature.hmacSha256
          (CookieSignature.utf8 secret.data) (CookieSignature.utf8 value.data))))) ∧
    CookieSignature.sign "my session id" "secret" =
      "s:my session id.Jytwl6nuMV42lj6Ldd7aa4sboVs87ZnnCfYLCAm7OrU" := by
  constructor
  · intro value secret
    apply congrArg String.mk
    show CookieSignature.signChars value.data secret.data = _
    simp [CookieSignature.signChars, CookieSignature.createSigChars, String.data_append]
  · decide

/-! ## Store and resolve-step theorems -/

/-- Lookup after insert of the same key finds the inserted value. -/
theorem mapLookup_mapInsert_self {α : Type} (k : String) (v : α) (m : List (String × α)) :
    mapLookup k (mapInsert k v m) = some v := by
  induction m with
  | nil => simp [mapInsert, mapLookup]
  | cons p rest ih =>
      obtain ⟨k', v'⟩ := p
      by_cases h : k' = k
      · simp [mapInsert, h, mapLookup]
      · simp [mapInsert, h, mapLookup, ih]

/-- Lookup of a key that is not among the map's keys is `none`. -/
theorem mapLookup_not_mem {α : Type} (k : String) (m : List (String × α))
    (h : k ∉ m.map Prod.fst) : mapLookup k m = none := by
  induction m with
  | nil => rfl
  | cons p rest ih =>
      obtain ⟨k', v'⟩ := p
      simp only [List.map_cons, List.mem_cons] at h
      push_neg at h
      simp [mapLookup, Ne.symm h.1, ih h.2]

/-- On a duplicate-free map (the `HashMap` invariant), lookup after removal
of the same key is `none`. -/
theorem mapLookup_mapRemove_self {α : Type} (k : String) (m : List (String × α))
    (hnd : (m.map Prod.fst).Nodup) : mapLookup k (mapRemove k m) = none := by
  induction m with
  | nil => rfl
  | cons p rest ih =>
      obtain ⟨k', v'⟩ := p
      simp only [List.map_cons, List.nodup_cons] at hnd
      by_cases h : k' = k
      · subst h
        simp only [mapRemove, if_pos rfl]
        exact mapLookup_not_mem _ _ hnd.1
      · simp [mapRemove, h, mapLookup, ih hnd.2]

/-- C7 counterexample: on the memory backend, `set(id, record, 0)` does
NOT leave the store without the key — the entry is physically inserted into
the backing map (with an already-elapsed expiry) and remains present. -/
theorem set_zero_ttl_key_remains :
    (Store.MemoryStore.set memStore0 "a" sd0 (some 0) 5).containsKey "sess:a" = true := by
  decide

/-- C7 as amended: a zero-TTL `set` makes the record logically absent — a
memory-backend `get` at the same or any later instant returns absent, and
the Redis backend deletes the key outright — but the memory backend retains
the dead entry in its map until a cleanup pass. -/
theorem set_zero_ttl_logical_absence (st : Store.MemoryStore) (rst : Store.RedisState)
    (sid pf : String) (d : MSessionData) (t t' dttl : Nat) (hle : t ≤ t')
    (hnd : (rst.entries.map Prod.fst).Nodup) :
    (Store.MemoryStore.set st sid d (some 0) t).get sid t' = none ∧
    mapLookup (pf ++ sid) (Store.RedisStore.set rst pf dttl sid d (some 0)).entries = none := by
  constructor
  · simp only [Store.MemoryStore.get, Store.MemoryStore.set, Store.MemoryStore.make_key,
      Option.map_some, mapLookup_mapInsert_self]
    simp [hle]
  · simp only [Store.RedisStore.set, Store.RedisStore.get_ttl, Option.getD_some]
    simp [mapLookup_mapRemove_self _ _ hnd]

/-- Witness for C7's amended claim on the empty stores. -/
theorem set_zero_ttl_logical_absence_witness :
    (Store.MemoryStore.set memStore0 "a" sd0 (some 0) 0).get "a" 5 = none ∧
    mapLookup ("sess:" ++ "a") (Store.RedisStore.set redis0 "sess:" 86400 "a" sd0 (some 0)).entries
      = none :=
  set_zero_ttl_logical_absence memStore0 redis0 "a" "sess:" sd0 0 5 86400
    (by decide) (by simp [redis0])

/-- C8 counterexample: a cookie value whose URL-decoding fails (for example
`sign("a%FF", "secret")`, whose `%FF` decodes to a non-UTF-8 byte) still
resolves to a session id, because the code falls back to verifying the raw
cookie value. -/
theorem decode_failure_still_resolves :
    get_session_id_from_cookie ["secret"] (some (CookieSignature.sign "a%FF" "secret")) none =
      some "a%FF" := by
  show CookieSignature.unsign_with_secrets (CookieSignature.sign "a%FF" "secret") ["secret"] =
    some "a%FF"
  exact CookieSignature.unsign_with_secrets_sign "a%FF" "secret"

/-- C8 as amended: no cookie always yields no resolved id, and a failed
signature verification yields no resolved id; but on URL-decode failure the
raw cookie value is passed to verification instead of failing, so such a
cookie resolves exactly when its raw value verifies. -/
theorem resolve_step_characterization (secrets : List String) (sv d : String) :
    (∀ dr, get_session_id_from_cookie secrets none dr = none) ∧
    (CookieSignature.unsign_with_secrets d secrets = none →
      get_session_id_from_cookie secrets (some sv) (some d) = none) ∧
    (CookieSignature.unsign_with_secrets sv secrets = none →
      get_session_id_from_cookie secrets (some sv) none = none) ∧
    get_session_id_from_cookie secrets (some sv) none =
      CookieSignature.unsign_with_secrets sv secrets :=
  ⟨fun _ => rfl, fun h => h, fun h => h, rfl⟩

/-- Witness for C8's amended claim at concrete inputs (the raw value `zzz`
has no `s:` prefix, so verification fails). -/
theorem resolve_step_characterization_witness :
    get_session_id_from_cookie ["secret"] none none = none ∧
    get_session_id_from_cookie ["secret"] (some "zzz") (some "zzz") = none ∧
    get_session_id_from_cookie ["secret"] (some "zzz") none = none ∧
    get_session_id_from_cookie ["secret"] (some "zzz") none =
      CookieSignature.unsign_with_secrets "zzz" ["secret"] :=
  ⟨(resolve_step_characterization ["secret"] "zzz" "zzz").1 none,
   (resolve_step_characterization ["secret"] "zzz" "zzz").2.1 (by decide),
   (resolve_step_characterization ["secret"] "zzz" "zzz").2.2.1 (by decide),
   (resolve_step_characterization ["secret"] "zzz" "zzz").2.2.2⟩
